import Mathlib

/-!
Verification of the KataGo search core (src/cpp/search/search.cpp) against its
natural-language specification.

Shallow embedding conventions:
* C++ `double` values are modelled as real numbers (`ℝ`) where transcendental
  functions (`log`, `sqrt`) occur, and as exact rationals (`ℚ`) where the code
  performs only arithmetic and comparisons (every IEEE double is a rational, so
  this is an exact embedding of the control flow).
* Machine integers (`int64_t`, `int`) are modelled as `Int` / `Nat`; none of the
  verified paths can overflow for the inputs considered.
* External collaborators (board rules oracle, history, RNG draws) are passed in
  explicitly as oracle functions or pre-drawn values.
* Stateful methods become functions from a model state to a model state.
-/

namespace KataGoSearch

/-- Player, as in the C++ `Player` with values `P_BLACK` / `P_WHITE`. -/
inductive Player where
  | black
  | white
deriving DecidableEq, Repr

/-- `getOpp` from the game layer: the opposing player. -/
def getOpp : Player → Player
  | Player.black => Player.white
  | Player.white => Player.black

/--
The `SearchNode::state` machine values. The numeric values live in search.h
(not under src/); the code in search.cpp only uses their order, via comparisons
such as `stateValue >= SearchNode::STATE_EXPANDED1`. Modelled from the spec:
ordered state in UNEVALUATED < EVALUATING < EXPANDED0 < GROWING1 < EXPANDED1 <
GROWING2 < EXPANDED2, realized as 0..6.
-/
inductive NodeState where
  | UNEVALUATED
  | EVALUATING
  | EXPANDED0
  | GROWING1
  | EXPANDED1
  | GROWING2
  | EXPANDED2
deriving DecidableEq, Repr

/-- The numeric value of a node state (the header enumerates them in order). -/
def NodeState.toNat : NodeState → Nat
  | .UNEVALUATED => 0
  | .EVALUATING => 1
  | .EXPANDED0 => 2
  | .GROWING1 => 3
  | .EXPANDED1 => 4
  | .GROWING2 => 5
  | .EXPANDED2 => 6

/--
The search parameters consumed by the verified code paths (a projection of the
C++ `SearchParams`). Fields used under `log`/`sqrt` are `ℝ`; fields used only
in exact arithmetic and comparisons are `ℚ`.
-/
structure SearchParams where
  cpuctExploration : ℝ
  cpuctExplorationLog : ℝ
  cpuctExplorationBase : ℝ
  treeReuseCarryOverTimeFactor : ℚ
  conservativePass : Bool
  graphSearchCatchUpLeakProb : ℚ
  rootDirichletNoiseWeight : ℝ
  rootDirichletNoiseTotalConcentration : ℝ

/-!
## Selection score (claim C1)

`Search::getExploreSelectionValue` (search.cpp lines 2408-2435).
-/

/--
Modelled from the spec: the illegal-selection sentinel returned for moves whose
policy probability is negative. It is a constant defined in search.h (not under
src/); only its identity as the returned sentinel matters for the claims.
-/
noncomputable def POLICY_ILLEGAL_SELECTION_VALUE : ℝ := -1e50

/-- `cpuctExploration` (static, search.cpp lines 2408-2411). -/
noncomputable def cpuctExploration (totalChildWeight : ℝ) (searchParams : SearchParams) : ℝ :=
  searchParams.cpuctExploration +
    searchParams.cpuctExplorationLog *
      Real.log ((totalChildWeight + searchParams.cpuctExplorationBase) / searchParams.cpuctExplorationBase)

/-- `TOTALCHILDWEIGHT_PUCT_OFFSET` (search.cpp line 2415). -/
noncomputable def TOTALCHILDWEIGHT_PUCT_OFFSET : ℝ := 0.01

/-- `Search::getExploreSelectionValue` (search.cpp lines 2417-2435). -/
noncomputable def getExploreSelectionValue
    (searchParams : SearchParams)
    (nnPolicyProb totalChildWeight childWeight childUtility parentUtilityStdevFactor : ℝ)
    (pla : Player) : ℝ :=
  if nnPolicyProb < 0 then POLICY_ILLEGAL_SELECTION_VALUE
  else
    let exploreComponent :=
      cpuctExploration totalChildWeight searchParams
        * parentUtilityStdevFactor
        * nnPolicyProb
        * Real.sqrt (totalChildWeight + TOTALCHILDWEIGHT_PUCT_OFFSET)
        / (1.0 + childWeight)
    let valueComponent := if pla = Player.white then childUtility else -childUtility
    exploreComponent + valueComponent

/-!
## Node state machine writes (claim C3)

Every store or compare-exchange performed on `SearchNode::state` anywhere in
search.cpp, as a relation from the value being replaced to the value written.
There are exactly six such writes:
* `Search::playoutDescend` line 3682: CAS `UNEVALUATED → EVALUATING`;
* `Search::playoutDescend` line 3691: store of `EXPANDED0`; the storing thread
  is the unique winner of the preceding CAS, so the replaced value is
  `EVALUATING` (no other write can fire from `EVALUATING`);
* `SearchNode::tryExpandingChildrenCapacityAssumeFull` line 352: CAS
  `EXPANDED0 → GROWING1`;
* line 376: store of `EXPANDED1` by the unique thread whose CAS installed
  `GROWING1`, so the replaced value is `GROWING1`;
* line 383: CAS `EXPANDED1 → GROWING2`;
* line 407: store of `EXPANDED2`, replacing `GROWING2` likewise.
-/

/-- One atomic write to `SearchNode::state`: `StateWrite old new` holds when
some operation in search.cpp replaces the value `old` by the value `new`. -/
inductive StateWrite : NodeState → NodeState → Prop where
  | evalStart : StateWrite NodeState.UNEVALUATED NodeState.EVALUATING
  | evalFinish : StateWrite NodeState.EVALUATING NodeState.EXPANDED0
  | grow1Start : StateWrite NodeState.EXPANDED0 NodeState.GROWING1
  | grow1Finish : StateWrite NodeState.GROWING1 NodeState.EXPANDED1
  | grow2Start : StateWrite NodeState.EXPANDED1 NodeState.GROWING2
  | grow2Finish : StateWrite NodeState.GROWING2 NodeState.EXPANDED2

/-!
## Child-array growth (claim C4)

`SearchNode::tryExpandingChildrenCapacityAssumeFull` (search.cpp lines 347-414)
and `SearchNode::maybeExpandChildrenCapacityForNewChild` (lines 321-328).
-/

/-- One slot of a children array: the atomic triple
{child pointer, edge visits, move label} of `SearchChildPointer`.
Pointers are modelled by node ids (`Nat`), `NULL` by `none`. -/
structure ChildSlot where
  child : Option Nat
  edgeVisits : Int
  moveLoc : Int
deriving DecidableEq, Repr

/-- `Board::NULL_LOC` (modelled: its numeric value lives outside src/). -/
def NULL_LOC : Int := 0

/-- A default-constructed `SearchChildPointer` (search.cpp lines 151-155). -/
def emptySlot : ChildSlot := { child := none, edgeVisits := 0, moveLoc := NULL_LOC }

/-- Modelled from the spec: the three child-array capacities `C0 < C1 < C2`
are constants of search.h (not under src/); search.cpp uses only their order.
The concrete numbers below are placeholders satisfying `C0 < C1 < C2`. -/
def CHILDREN0SIZE : Nat := 8

/-- Second-tier capacity; see `CHILDREN0SIZE`. -/
def CHILDREN1SIZE : Nat := 64

/-- Third-tier capacity; see `CHILDREN0SIZE`. -/
def CHILDREN2SIZE : Nat := 362

/-- The three (optional) children arrays and state of a `SearchNode`, as far as
`tryExpandingChildrenCapacityAssumeFull` touches them. `none` models a `NULL`
array pointer. -/
structure GrowNode where
  state : NodeState
  children0 : Option (List ChildSlot)
  children1 : Option (List ChildSlot)
  children2 : Option (List ChildSlot)
deriving DecidableEq, Repr

/-- `SearchNode::getChildrenCapacity` (search.cpp lines 330-338). -/
def getChildrenCapacity (stateValue : NodeState) : Nat :=
  if NodeState.EXPANDED2.toNat ≤ stateValue.toNat then CHILDREN2SIZE
  else if NodeState.EXPANDED1.toNat ≤ stateValue.toNat then CHILDREN1SIZE
  else if NodeState.EXPANDED0.toNat ≤ stateValue.toNat then CHILDREN0SIZE
  else 0

/-- Whether the first `n` slots of an array all hold a non-NULL child: the
precondition of `tryExpandingChildrenCapacityAssumeFull`, which the code
re-checks with `assert(child != NULL)` on each copied slot. -/
def slotsAllFull (old : List ChildSlot) (n : Nat) : Bool :=
  (List.range n).all (fun i => ((old.getD i emptySlot).child).isSome)

/-- The copy loop of `tryExpandingChildrenCapacityAssumeFull` (lines 356-373 and
387-404): a freshly allocated array of `newSize` default slots whose first
`oldSize` slots receive the old array's child pointer, edge visits and move. -/
def copySlots (old : List ChildSlot) (oldSize newSize : Nat) : List ChildSlot :=
  (List.range newSize).map (fun i => if i < oldSize then old.getD i emptySlot else emptySlot)

/-- `SearchNode::tryExpandingChildrenCapacityAssumeFull` (search.cpp lines
347-414). Sequential model of one call: `casSucceeds` tells whether the
`compare_exchange_strong` on `state` succeeds (it fails exactly when another
worker concurrently moved the state). Returns `(returnValue, node, stateValue)`
with the node and in-out `stateValue` after the call, or `none` when a C++
`assert` (or `ASSERT_UNREACHABLE`) would fire. -/
def tryExpandingChildrenCapacityAssumeFull
    (n : GrowNode) (stateValue : NodeState) (casSucceeds : Bool) :
    Option (Bool × GrowNode × NodeState) :=
  if stateValue.toNat < NodeState.EXPANDED1.toNat then
    if stateValue = NodeState.GROWING1 then some (false, n, stateValue)
    else if stateValue ≠ NodeState.EXPANDED0 then none
    else if casSucceeds = false then some (false, n, stateValue)
    else
      match n.children0 with
      | none => none
      | some oldChildren =>
        if slotsAllFull oldChildren CHILDREN0SIZE = false then none
        else if n.children1 ≠ none then none
        else
          some (true,
            { n with
              children1 := some (copySlots oldChildren CHILDREN0SIZE CHILDREN1SIZE),
              state := NodeState.EXPANDED1 },
            NodeState.EXPANDED1)
  else if stateValue.toNat < NodeState.EXPANDED2.toNat then
    if stateValue = NodeState.GROWING2 then some (false, n, stateValue)
    else if stateValue ≠ NodeState.EXPANDED1 then none
    else if casSucceeds = false then some (false, n, stateValue)
    else
      match n.children1 with
      | none => none
      | some oldChildren =>
        if slotsAllFull oldChildren CHILDREN1SIZE = false then none
        else if n.children2 ≠ none then none
        else
          some (true,
            { n with
              children2 := some (copySlots oldChildren CHILDREN1SIZE CHILDREN2SIZE),
              state := NodeState.EXPANDED2 },
            NodeState.EXPANDED2)
  else none

/-- `SearchNode::maybeExpandChildrenCapacityForNewChild` (search.cpp lines
321-328). Returns `none` when the capacity `assert` fails. -/
def maybeExpandChildrenCapacityForNewChild
    (n : GrowNode) (stateValue : NodeState) (numChildrenFullPlusOne : Nat)
    (casSucceeds : Bool) : Option (Bool × GrowNode × NodeState) :=
  if getChildrenCapacity stateValue < numChildrenFullPlusOne then
    if getChildrenCapacity stateValue ≠ numChildrenFullPlusOne - 1 then none
    else tryExpandingChildrenCapacityAssumeFull n stateValue casSucceeds
  else some (true, n, stateValue)

/-!
## Edge-visit catch-up (claim C5)

`Search::maybeCatchUpEdgeVisits` (search.cpp lines 3865-3896) and the way
`Search::playoutDescend` consumes its result (lines 3813-3836).
-/

/--
`Search::maybeCatchUpEdgeVisits`, sequential model of one call.
`leakDraw` is the pre-drawn result of `thread.rand.nextBool(graphSearchCatchUpLeakProb)`
(consulted by the code only when the leak probability is positive and the edge
is behind). `childVisits` is the child's loaded total visit count and
`edgeVisits` the loaded edge visit count. Returns the boolean result together
with the edge-visit count after the call; the successful compare-exchange adds
the constant `numToAdd = 1` (lines 3887-3893).
-/
def maybeCatchUpEdgeVisits
    (searchParams : SearchParams) (leakDraw : Bool)
    (childVisits edgeVisits : Int) : Bool × Int :=
  if 0 < searchParams.graphSearchCatchUpLeakProb ∧ edgeVisits < childVisits ∧ leakDraw = true then
    (false, edgeVisits)
  else if childVisits ≤ edgeVisits then (false, edgeVisits)
  else (true, edgeVisits + 1)

/-- What `playoutDescend` does with an existing child after taking a virtual
loss (search.cpp lines 3830-3843): either complete the playout here as a
caught-up edge visit, or descend into the child. -/
inductive DescendAction where
  | catchUpVisit
  | descendIntoChild
deriving DecidableEq, Repr

/-- The decision step of `Search::playoutDescend` at an existing child
(lines 3830-3843): if `maybeCatchUpEdgeVisits` returns true the playout is
counted as finished at this node (stats updated, no recursion); otherwise the
move is made and the search descends into the child. -/
def playoutDescendExistingChildStep
    (searchParams : SearchParams) (leakDraw : Bool)
    (childVisits edgeVisits : Int) : DescendAction × Int :=
  match maybeCatchUpEdgeVisits searchParams leakDraw childVisits edgeVisits with
  | (true, e) => (DescendAction.catchUpVisit, e)
  | (false, e) => (DescendAction.descendIntoChild, e)

/-!
## Time-control recomputation by worker 0 (claim C8)

The `searchLoop` lambda in `Search::runWholeSearch` (search.cpp lines
1276-1334). `lastTimeUsedRecomputingTcLimit` is initialized to `0.0` at line
1285 and is never assigned again; the recomputation guard at line 1311 is
`timeUsed >= lastTimeUsedRecomputingTcLimit + 0.1`.
-/

/--
The timer readings at which worker 0 recomputes the time-control limit, given
the sequence of `timer.getSeconds()` values it observes at the top of
successive loop iterations. Faithful to lines 1285 and 1309-1320: the
accumulator `lastTimeUsedRecomputingTcLimit` is threaded through the loop but —
exactly as in the code — never updated when a recomputation happens.
-/
def worker0RecomputeTimesFrom
    (pondering hasTcOrHasMaxTime : Bool) (threadIdx : Nat) :
    List ℚ → ℚ → List ℚ
  | [], _ => []
  | timeUsed :: rest, lastTimeUsedRecomputingTcLimit =>
    if pondering = false ∧ hasTcOrHasMaxTime = true ∧ threadIdx = 0 ∧
        lastTimeUsedRecomputingTcLimit + 1/10 ≤ timeUsed then
      timeUsed :: worker0RecomputeTimesFrom pondering hasTcOrHasMaxTime threadIdx rest
        lastTimeUsedRecomputingTcLimit
    else
      worker0RecomputeTimesFrom pondering hasTcOrHasMaxTime threadIdx rest
        lastTimeUsedRecomputingTcLimit

/-- Worker 0's recomputation times over a whole search, starting from the
initialization `lastTimeUsedRecomputingTcLimit = 0.0` (line 1285). -/
def worker0RecomputeTimes (pondering hasTcOrHasMaxTime : Bool) (timeReadings : List ℚ) : List ℚ :=
  worker0RecomputeTimesFrom pondering hasTcOrHasMaxTime 0 timeReadings 0

/-!
## Search state, clearSearch, setPosition, makeMove (claims C2, C7, C9, C10)

The relevant fields of the `Search` object, and the methods `Search::clearSearch`
(lines 827-837), `Search::setPosition` (lines 726-735),
`Search::setPlayerAndClearHistory` (lines 737-751) and `Search::makeMove`
(lines 863-956). Boards and histories are opaque values manipulated through a
rules oracle (the game layer is an external collaborator per the spec).
-/

/-- A search tree node as far as `makeMove` inspects it: identity (modelling
the heap pointer), incoming move, whether `getNNOutput()` is non-NULL, visit
count, `forceNonTerminal`, and the allocated children in array order (the code
iterates the children array and stops at the first NULL slot; the list holds
exactly the allocated prefix). -/
inductive NodeM : Type where
  | mk : (nid : Nat) → (moveLoc : Int) → (hasNNOutput : Bool) → (visits : Int) →
      (forceNonTerminal : Bool) → (children : List NodeM) → NodeM

/-- Node identity (the heap pointer). -/
def NodeM.nid : NodeM → Nat
  | .mk i _ _ _ _ _ => i

/-- The move on the edge leading to this node. -/
def NodeM.moveLoc : NodeM → Int
  | .mk _ m _ _ _ _ => m

/-- Whether `node->getNNOutput() != NULL`. -/
def NodeM.hasNNOutput : NodeM → Bool
  | .mk _ _ h _ _ _ => h

/-- `node->stats.visits`. -/
def NodeM.visits : NodeM → Int
  | .mk _ _ _ v _ _ => v

/-- `node->forceNonTerminal`. -/
def NodeM.forceNonTerminal : NodeM → Bool
  | .mk _ _ _ _ f _ => f

/-- The allocated children, in children-array order. -/
def NodeM.children : NodeM → List NodeM
  | .mk _ _ _ _ _ c => c

mutual
/-- The node ids reachable from a node, itself included: the set marked by
`applyRecursivelyAnyOrderMulithreaded({rootNode}, NULL)` (search.cpp lines
917-919 and 1709-1765), which stamps `nodeAge = searchNodeAge` on exactly the
nodes walked over. -/
def reachableIds : NodeM → List Nat
  | .mk i _ _ _ _ c => i :: reachableIdsList c

/-- `reachableIds` over a list of children. -/
def reachableIdsList : List NodeM → List Nat
  | [] => []
  | n :: rest => reachableIds n ++ reachableIdsList rest
end

/-- The game-rules oracle consumed by `makeMove` (legality, move application,
terminal checks are external collaborators per the spec). Boards and histories
are opaque `Nat` tokens. -/
structure RulesOracle where
  isLegalTolerantRes : Int → Player → Bool
  clearSimpleKoLoc : Nat → Nat
  clearedHistory : Nat → Nat → Nat
  boardAfterMove : Nat → Int → Player → Nat
  historyAfterMove : Nat → Nat → Int → Player → Bool → Nat
  whiteHandicapBonusScore : Nat → ℚ
  passWouldEndGame : Nat → Nat → Player → Bool
  passWouldEndPhase : Nat → Nat → Player → Bool

/-- The fields of `Search` touched by `clearSearch`, `setPosition` and
`makeMove`. The node table is its shard maps, each a list of
(position key, node id) entries; `oldNNOutputsToCleanUp` holds ids of deferred
NN outputs. -/
structure SearchStateM where
  searchParams : SearchParams
  rootPla : Player
  plaThatSearchIsFor : Option Player
  rootBoard : Nat
  rootHistory : Nat
  rootNode : Option NodeM
  avoidMoveUntilByLocBlack : List Int
  avoidMoveUntilByLocWhite : List Int
  nodeTableShards : List (List (Nat × Nat))
  oldNNOutputsToCleanUp : List Nat
  effectiveSearchTimeCarriedOver : ℚ
  searchNodeAge : Nat
  rootHintLoc : Int

/-- `Search::deleteAllTableNodesMulithreaded` (search.cpp lines 1811-1826):
every shard map is emptied (`nodeMap.clear()`); the shard structure remains. -/
def deleteAllTableNodesMulithreaded (shards : List (List (Nat × Nat))) : List (List (Nat × Nat)) :=
  shards.map (fun _ => [])

/-- `Search::clearSearch` (search.cpp lines 827-837). -/
def clearSearch (s : SearchStateM) : SearchStateM :=
  { s with
    effectiveSearchTimeCarriedOver := 0,
    nodeTableShards := deleteAllTableNodesMulithreaded s.nodeTableShards,
    rootNode := none,
    oldNNOutputsToCleanUp := [],
    searchNodeAge := 0 }

/-- `Search::setPosition` (search.cpp lines 726-735). -/
def setPosition (s : SearchStateM) (pla : Player) (board history : Nat) : SearchStateM :=
  let s1 := clearSearch s
  { s1 with
    rootPla := pla,
    plaThatSearchIsFor := none,
    rootBoard := board,
    rootHistory := history,
    avoidMoveUntilByLocBlack := [],
    avoidMoveUntilByLocWhite := [] }

/-- `Search::setPlayerAndClearHistory` (search.cpp lines 737-751). -/
def setPlayerAndClearHistory (oracle : RulesOracle) (s : SearchStateM) (pla : Player) :
    SearchStateM :=
  let s1 := clearSearch s
  let newBoard := oracle.clearSimpleKoLoc s1.rootBoard
  { s1 with
    rootPla := pla,
    plaThatSearchIsFor := none,
    rootBoard := newBoard,
    rootHistory := oracle.clearedHistory newBoard s1.rootHistory,
    avoidMoveUntilByLocBlack := [],
    avoidMoveUntilByLocWhite := [] }

/-- The child-scanning loop of `makeMove` (search.cpp lines 874-886): the first
allocated child whose move label equals `moveLoc`. -/
def findFirstChildByMove (children : List NodeM) (moveLoc : Int) : Option NodeM :=
  children.find? (fun c => c.moveLoc == moveLoc)

/-- `foundChild` after the nnOutput safeguard (search.cpp lines 888-897): the
matching child, demoted to `none` when its `getNNOutput()` is NULL. -/
def foundChildWithNNOutput (root : NodeM) (moveLoc : Int) : Option NodeM :=
  match findFirstChildByMove root.children moveLoc with
  | none => none
  | some child => if child.hasNNOutput then some child else none

/-- The clone `new SearchNode(*child, forceNonTerminal := true,
copySubtreeValueBias := false)` (search.cpp lines 913-916). The clone is a
fresh allocation, modelled by the fresh id. -/
def promoteClone (child : NodeM) (freshId : Nat) : NodeM :=
  match child with
  | .mk _ m h v _ c => .mk freshId m h v true c

/-- The tree-reuse branch of `makeMove` (search.cpp lines 899-922): carry-over
time accounting, promotion of the cloned child to root, then mark-and-sweep:
`applyRecursivelyAnyOrderMulithreaded` bumps `searchNodeAge` and stamps the
reachable nodes, and `deleteAllOldOrAllNewTableNodesAndSubtreeValueBiasMulithreaded(old
:= true)` (lines 1784-1807) erases every table entry whose node age is stale,
i.e. every entry whose node is unreachable from the new root. -/
def promoteChildAndSweep (s : SearchStateM) (root child : NodeM) (freshId : Nat) :
    SearchStateM :=
  let rootVisits := root.visits
  let childVisits := child.visits
  let visitProportionRaw : ℚ := (childVisits : ℚ) / (rootVisits : ℚ)
  let visitProportion : ℚ := if 1 < visitProportionRaw then 1 else visitProportionRaw
  let newRoot := promoteClone child freshId
  let marked := reachableIds newRoot
  { s with
    effectiveSearchTimeCarriedOver :=
      s.effectiveSearchTimeCarriedOver * visitProportion *
        s.searchParams.treeReuseCarryOverTimeFactor,
    rootNode := some newRoot,
    searchNodeAge := s.searchNodeAge + 1,
    nodeTableShards :=
      s.nodeTableShards.map (fun shard => shard.filter (fun kv => marked.contains kv.2)) }

/-- The tree-handling block of `makeMove` (search.cpp lines 870-926): with a
root node present, either promote the matching child with a non-null evaluator
output, or clear the search. -/
def makeMoveTreeStep (s1 : SearchStateM) (moveLoc : Int) (freshId : Nat) : SearchStateM :=
  match s1.rootNode with
  | none => s1
  | some root =>
    match foundChildWithNNOutput root moveLoc with
    | some child => promoteChildAndSweep s1 root child freshId
    | none => clearSearch s1

/-- The tail of `makeMove` after the tree handling (search.cpp lines 928-955):
apply the move to the root board/history/player, clear the avoid-move lists,
then clear the search if the white handicap bonus changed, if conservative-pass
makes a root pass game-ending, or if prevent-encore makes a pass phase-ending. -/
def makeMoveFinish (oracle : RulesOracle) (s2 : SearchStateM) (moveLoc : Int)
    (preventEncore : Bool) : SearchStateM :=
  let oldWhiteHandicapBonusScore := oracle.whiteHandicapBonusScore s2.rootHistory
  let newBoard := oracle.boardAfterMove s2.rootBoard moveLoc s2.rootPla
  let newHistory :=
    oracle.historyAfterMove s2.rootHistory s2.rootBoard moveLoc s2.rootPla preventEncore
  let s3 :=
    { s2 with
      rootBoard := newBoard,
      rootHistory := newHistory,
      rootPla := getOpp s2.rootPla,
      avoidMoveUntilByLocBlack := [],
      avoidMoveUntilByLocWhite := [] }
  let s4 :=
    if oracle.whiteHandicapBonusScore s3.rootHistory ≠ oldWhiteHandicapBonusScore then
      clearSearch s3
    else s3
  let s5 :=
    if s4.searchParams.conservativePass = true ∧
        oracle.passWouldEndGame s4.rootHistory s4.rootBoard s4.rootPla = true then
      clearSearch s4
    else s4
  if preventEncore = true ∧
      oracle.passWouldEndPhase s5.rootHistory s5.rootBoard s5.rootPla = true then
    clearSearch s5
  else s5

/-- `Search::makeMove` (search.cpp lines 863-956). `freshId` models the address
of the freshly allocated root clone. Returns the C++ return value paired with
the search state after the call. -/
def makeMove (oracle : RulesOracle) (s : SearchStateM) (moveLoc : Int) (movePla : Player)
    (preventEncore : Bool) (freshId : Nat) : Bool × SearchStateM :=
  if oracle.isLegalTolerantRes moveLoc movePla = false then (false, s)
  else
    let s1 := if movePla ≠ s.rootPla then setPlayerAndClearHistory oracle s movePla else s
    let s2 := makeMoveTreeStep s1 moveLoc freshId
    (true, makeMoveFinish oracle s2 moveLoc preventEncore)

/-!
## Root Dirichlet noise (claim C6)

`Search::computeDirichletAlphaDistribution` (search.cpp lines 2135-2176) and
`Search::addDirichletNoise` (lines 2178-2206). Policy probabilities are floats;
a move is legal exactly when its probability is nonnegative.
-/

/-- The legality test `policyProbs[i] >= 0` used throughout both functions. -/
noncomputable def isLegalProb (p : ℝ) : Bool := decide (0 ≤ p)

/-- `legalCount` (search.cpp lines 2136-2140). -/
noncomputable def legalCount (policy : List ℝ) : Nat :=
  (policy.filter isLegalProb).length

/-- The per-move clamped log policy `log(min(0.01, policyProbs[i]) + 1e-20)`
(search.cpp line 2151). -/
noncomputable def clampLog (p : ℝ) : ℝ := Real.log (min 0.01 p + 1e-20)

/-- `logPolicySum` (search.cpp lines 2148-2154): sum of clamped logs over the
legal moves. -/
noncomputable def logPolicySum (policy : List ℝ) : ℝ :=
  ((policy.filter isLegalProb).map clampLog).sum

/-- `logPolicyMean` (search.cpp line 2155). -/
noncomputable def logPolicyMean (policy : List ℝ) : ℝ :=
  logPolicySum policy / (legalCount policy : ℝ)

/-- The log-policy-shaped raw share `max(0.0, alphaDistr[i] - logPolicyMean)`
of a legal move (search.cpp line 2159). -/
noncomputable def alphaPropAt (policy : List ℝ) (p : ℝ) : ℝ :=
  max 0 (clampLog p - logPolicyMean policy)

/-- `alphaPropSum` (search.cpp lines 2156-2162). -/
noncomputable def alphaPropSum (policy : List ℝ) : ℝ :=
  ((policy.filter isLegalProb).map (alphaPropAt policy)).sum

/-- `uniformProb = 1.0 / legalCount` (search.cpp line 2163). -/
noncomputable def uniformProb (policy : List ℝ) : ℝ :=
  1 / (legalCount policy : ℝ)

/-- The entries of the alpha-proportion buffer after
`computeDirichletAlphaDistribution` returns (search.cpp lines 2157-2175).
The code writes only the legal slots of the caller-provided buffer and the
caller zeroes the illegal slots before use (line 2192); illegal slots are 0
here. -/
noncomputable def dirichletAlphaEntries (policy : List ℝ) : List ℝ :=
  policy.map (fun p =>
    if isLegalProb p then
      if alphaPropSum policy ≤ 0 then uniformProb policy
      else 0.5 * (alphaPropAt policy p / alphaPropSum policy + uniformProb policy)
    else 0)

/-- `Search::computeDirichletAlphaDistribution` (search.cpp lines 2135-2176).
`none` models the `StringError` thrown when no move has nonnegative policy. -/
noncomputable def computeDirichletAlphaDistribution (policy : List ℝ) : Option (List ℝ) :=
  if legalCount policy = 0 then none else some (dirichletAlphaEntries policy)

/-- The gamma-sampling loop of `addDirichletNoise` (search.cpp lines 2185-2193):
`gammaDraw i a` is the pre-drawn result of the i-th call
`rand.nextGamma(a)`; illegal moves get `r[i] = 0.0`. -/
noncomputable def gammaDraws (searchParams : SearchParams) (gammaDraw : Nat → ℝ → ℝ)
    (policy : List ℝ) : List ℝ :=
  (List.range policy.length).map (fun i =>
    if isLegalProb (policy.getD i 0) then
      gammaDraw i ((dirichletAlphaEntries policy).getD i 0 *
        searchParams.rootDirichletNoiseTotalConcentration)
    else 0)

/-- The final blending loop of `addDirichletNoise` (search.cpp lines
2195-2205): each gamma draw is normalized by the total draw sum and blended
into the policy with weight `rootDirichletNoiseWeight`; illegal moves are left
as they were. -/
noncomputable def noisyPolicyEntries (searchParams : SearchParams) (gammaDraw : Nat → ℝ → ℝ)
    (policy : List ℝ) : List ℝ :=
  (List.range policy.length).map (fun i =>
    let p := policy.getD i 0
    if isLegalProb p then
      ((gammaDraws searchParams gammaDraw policy).getD i 0 /
          (gammaDraws searchParams gammaDraw policy).sum) *
        searchParams.rootDirichletNoiseWeight +
        p * (1 - searchParams.rootDirichletNoiseWeight)
    else p)

/-- `Search::addDirichletNoise` (search.cpp lines 2178-2206): compute the alpha
proportions, draw a gamma per legal move, normalize and blend. -/
noncomputable def addDirichletNoise (searchParams : SearchParams) (gammaDraw : Nat → ℝ → ℝ)
    (policy : List ℝ) : Option (List ℝ) :=
  match computeDirichletAlphaDistribution policy with
  | none => none
  | some _ => some (noisyPolicyEntries searchParams gammaDraw policy)

/-- Sum of the `values` entries at the legal positions of `policy` (the two
lists are read in lockstep). -/
noncomputable def sumOverLegal : List ℝ → List ℝ → ℝ
  | p :: ps, v :: vs => (if isLegalProb p then v else 0) + sumOverLegal ps vs
  | _, _ => 0

/-!
## Shared helper lemmas
-/

/-- Every shard produced by `deleteAllTableNodesMulithreaded` is empty. -/
theorem mem_deleteAllTableNodes_eq_nil (shards : List (List (Nat × Nat))) :
    ∀ shard ∈ deleteAllTableNodesMulithreaded shards, shard = [] := by
  intro shard hs
  simp only [deleteAllTableNodesMulithreaded, List.mem_map] at hs
  obtain ⟨_, _, h⟩ := hs
  exact h.symm

/-- `clearSearch` empties every shard of the node table. -/
theorem clearSearch_shards_blank (s : SearchStateM) :
    ∀ shard ∈ (clearSearch s).nodeTableShards, shard = [] :=
  mem_deleteAllTableNodes_eq_nil s.nodeTableShards

/-!
## Claim theorems
-/

/-- Claim C1: for a legal move (nonnegative policy), the selection score of
`getExploreSelectionValue` equals
`(pla==white ? Q : -Q) + cPuct(W) * parentUtilityStdevFactor * P * sqrt(W + 0.01) / (1 + childWeight)`
with `cPuct(W) = cpuctExploration + cpuctExplorationLog * ln((W + cpuctExplorationBase) / cpuctExplorationBase)`,
and for a negative (illegal) policy it returns the illegal-selection sentinel. -/
theorem claim_C1_exploreSelectionValue
    (searchParams : SearchParams)
    (nnPolicyProb totalChildWeight childWeight childUtility parentUtilityStdevFactor : ℝ)
    (pla : Player) :
    (0 ≤ nnPolicyProb →
      getExploreSelectionValue searchParams nnPolicyProb totalChildWeight childWeight
          childUtility parentUtilityStdevFactor pla =
        (if pla = Player.white then childUtility else -childUtility) +
          (searchParams.cpuctExploration +
              searchParams.cpuctExplorationLog *
                Real.log ((totalChildWeight + searchParams.cpuctExplorationBase) /
                  searchParams.cpuctExplorationBase)) *
            parentUtilityStdevFactor * nnPolicyProb *
            Real.sqrt (totalChildWeight + 0.01) / (1 + childWeight)) ∧
    (nnPolicyProb < 0 →
      getExploreSelectionValue searchParams nnPolicyProb totalChildWeight childWeight
          childUtility parentUtilityStdevFactor pla = POLICY_ILLEGAL_SELECTION_VALUE) := by
  constructor
  · intro h
    rw [getExploreSelectionValue, if_neg (not_lt.mpr h)]
    simp only [cpuctExploration, TOTALCHILDWEIGHT_PUCT_OFFSET]
    norm_num
    ring
  · intro h
    rw [getExploreSelectionValue, if_pos h]

/-- Concrete search parameters used by witnesses. -/
noncomputable def spWitness : SearchParams :=
  { cpuctExploration := 1
    cpuctExplorationLog := 2
    cpuctExplorationBase := 500
    treeReuseCarryOverTimeFactor := 1
    conservativePass := false
    graphSearchCatchUpLeakProb := 0
    rootDirichletNoiseWeight := 1/4
    rootDirichletNoiseTotalConcentration := 11 }

/-- Witness for C1 at a concrete legal input. -/
theorem claim_C1_exploreSelectionValue_witness :
    getExploreSelectionValue spWitness 1 2 3 4 5 Player.black =
      (if Player.black = Player.white then (4:ℝ) else -4) +
        (spWitness.cpuctExploration +
            spWitness.cpuctExplorationLog *
              Real.log ((2 + spWitness.cpuctExplorationBase) /
                spWitness.cpuctExplorationBase)) *
          5 * 1 * Real.sqrt (2 + 0.01) / (1 + 3) :=
  (claim_C1_exploreSelectionValue spWitness 1 2 3 4 5 Player.black).1 (by norm_num)

/-- Claim C3: every store or compare-exchange on `SearchNode::state` writes a
value strictly greater than the value it replaces, so along any sequence of
such writes the state advances in the order UNEVALUATED < EVALUATING <
EXPANDED0 < GROWING1 < EXPANDED1 < GROWING2 < EXPANDED2 and never regresses. -/
theorem claim_C3_stateMonotone :
    (∀ a b : NodeState, StateWrite a b → a.toNat < b.toNat) ∧
    (∀ a b : NodeState, Relation.ReflTransGen StateWrite a b → a.toNat ≤ b.toNat) := by
  have single : ∀ a b : NodeState, StateWrite a b → a.toNat < b.toNat := by
    intro a b h
    cases h <;> decide
  refine ⟨single, ?_⟩
  intro a b h
  induction h with
  | refl => exact le_refl _
  | tail _ hw ih => exact le_trans ih (le_of_lt (single _ _ hw))

/-- Witness for C3 at the first transition. -/
theorem claim_C3_stateMonotone_witness :
    NodeState.UNEVALUATED.toNat < NodeState.EVALUATING.toNat :=
  claim_C3_stateMonotone.1 _ _ StateWrite.evalStart

/-- Claim C5: `maybeCatchUpEdgeVisits` returns false whenever the edge visit
count is at least the child visit count, and also (when the edge is behind and
the leak probability is positive) when the leak coin comes up true; whenever it
returns true it adds exactly 1 to the edge visit count; and the caller's
descent step completes the playout without descending exactly when it returns
true. -/
theorem claim_C5_maybeCatchUpEdgeVisits
    (searchParams : SearchParams) (leakDraw : Bool) (childVisits edgeVisits : Int) :
    (childVisits ≤ edgeVisits →
      maybeCatchUpEdgeVisits searchParams leakDraw childVisits edgeVisits =
        (false, edgeVisits)) ∧
    (0 < searchParams.graphSearchCatchUpLeakProb → edgeVisits < childVisits →
      leakDraw = true →
      maybeCatchUpEdgeVisits searchParams leakDraw childVisits edgeVisits =
        (false, edgeVisits)) ∧
    (∀ r : Int,
      maybeCatchUpEdgeVisits searchParams leakDraw childVisits edgeVisits = (true, r) →
      r = edgeVisits + 1) ∧
    ((playoutDescendExistingChildStep searchParams leakDraw childVisits edgeVisits).1 =
        DescendAction.catchUpVisit ↔
      (maybeCatchUpEdgeVisits searchParams leakDraw childVisits edgeVisits).1 = true) := by
  refine ⟨?_, ?_, ?_, ?_⟩
  · intro h
    rw [maybeCatchUpEdgeVisits]
    have hnot : ¬(0 < searchParams.graphSearchCatchUpLeakProb ∧
        edgeVisits < childVisits ∧ leakDraw = true) := by
      rintro ⟨-, hlt, -⟩
      exact absurd h (not_le.mpr hlt)
    rw [if_neg hnot, if_pos h]
  · intro hp hlt hd
    rw [maybeCatchUpEdgeVisits, if_pos ⟨hp, hlt, hd⟩]
  · intro r hr
    rw [maybeCatchUpEdgeVisits] at hr
    split at hr
    · exact absurd hr (by simp)
    · split at hr
      · exact absurd hr (by simp)
      · exact (Prod.mk.injEq _ _ _ _ ▸ hr).2.symm ▸ rfl
  · rw [playoutDescendExistingChildStep]
    rcases hm : maybeCatchUpEdgeVisits searchParams leakDraw childVisits edgeVisits with ⟨b, e⟩
    cases b <;> simp

/-- Witness for C5: with the edge not behind, the call declines and leaves the
edge count unchanged. -/
theorem claim_C5_maybeCatchUpEdgeVisits_witness :
    maybeCatchUpEdgeVisits spWitness false 5 7 = (false, 7) :=
  (claim_C5_maybeCatchUpEdgeVisits spWitness false 5 7).1 (by norm_num)

/-- Claim C7: after `clearSearch`, every shard map of the node table is empty,
the root node is NULL, the deferred old-NN-output cleanup list is empty, the
carried-over effective search time is 0 and the search node age is 0. -/
theorem claim_C7_clearSearch (s : SearchStateM) :
    (∀ shard ∈ (clearSearch s).nodeTableShards, shard = []) ∧
    (clearSearch s).rootNode = none ∧
    (clearSearch s).oldNNOutputsToCleanUp = [] ∧
    (clearSearch s).effectiveSearchTimeCarriedOver = 0 ∧
    (clearSearch s).searchNodeAge = 0 :=
  ⟨clearSearch_shards_blank s, rfl, rfl, rfl, rfl⟩

/-- A concrete search state used by witnesses: a one-shard table with one
entry and a nonempty cleanup list. -/
def sWitness : SearchStateM :=
  { searchParams :=
      { cpuctExploration := 0
        cpuctExplorationLog := 0
        cpuctExplorationBase := 1
        treeReuseCarryOverTimeFactor := 1
        conservativePass := false
        graphSearchCatchUpLeakProb := 0
        rootDirichletNoiseWeight := 0
        rootDirichletNoiseTotalConcentration := 0 }
    rootPla := Player.black
    plaThatSearchIsFor := none
    rootBoard := 10
    rootHistory := 20
    rootNode := none
    avoidMoveUntilByLocBlack := [3]
    avoidMoveUntilByLocWhite := [4]
    nodeTableShards := [[(5, 6)]]
    oldNNOutputsToCleanUp := [7]
    effectiveSearchTimeCarriedOver := 2
    searchNodeAge := 9
    rootHintLoc := 11 }

/-- Witness for C7 at a concrete state with a nonempty table. -/
theorem claim_C7_clearSearch_witness :
    ([] : List (Nat × Nat)) ∈ (clearSearch sWitness).nodeTableShards ∧
    ([] : List (Nat × Nat)) = [] :=
  ⟨by simp [sWitness, clearSearch, deleteAllTableNodesMulithreaded],
    (claim_C7_clearSearch sWitness).1 []
      (by simp [sWitness, clearSearch, deleteAllTableNodesMulithreaded])⟩

/-- Claim C10 (frame of `clearSearch`): the root board, root history (and with
it the komi, which lives in the history's rules), root player, search
parameters, hint location, avoid-move lists and the player-searched-for marker
are all unchanged by `clearSearch`. -/
theorem claim_C10_clearSearchFrame (s : SearchStateM) :
    (clearSearch s).rootBoard = s.rootBoard ∧
    (clearSearch s).rootHistory = s.rootHistory ∧
    (clearSearch s).rootPla = s.rootPla ∧
    (clearSearch s).searchParams = s.searchParams ∧
    (clearSearch s).rootHintLoc = s.rootHintLoc ∧
    (clearSearch s).avoidMoveUntilByLocBlack = s.avoidMoveUntilByLocBlack ∧
    (clearSearch s).avoidMoveUntilByLocWhite = s.avoidMoveUntilByLocWhite ∧
    (clearSearch s).plaThatSearchIsFor = s.plaThatSearchIsFor :=
  ⟨rfl, rfl, rfl, rfl, rfl, rfl, rfl, rfl⟩

/-- Claim C8 (refuting evaluation): `lastTimeUsedRecomputingTcLimit` is never
updated inside the search loop, so worker 0 observing timer readings 0.2s and
0.25s recomputes the time-control limit at both readings, although they lie
within the same 0.1-second interval (0.25 < 0.2 + 0.1). This contradicts the
claimed (and commented) cap of at most one recomputation per 0.1 seconds. -/
theorem claim_C8_recomputeEveryIteration :
    worker0RecomputeTimes false true [1/5, 1/4] = [1/5, 1/4] ∧
    ((1/4 : ℚ) < 1/5 + 1/10) := by
  constructor
  · norm_num [worker0RecomputeTimes, worker0RecomputeTimesFrom]
  · norm_num

/-- The copy of the old tier into a fresh larger tier has the new capacity. -/
theorem copySlots_length (old : List ChildSlot) (oldSize newSize : Nat) :
    (copySlots old oldSize newSize).length = newSize := by
  simp [copySlots]

/-- Below the old capacity, the copied tier agrees with the old tier slot by
slot (child pointer, edge visits and move label travel together in a
`ChildSlot`). -/
theorem copySlots_getD (old : List ChildSlot) (oldSize newSize i : Nat)
    (h1 : i < oldSize) (h2 : i < newSize) :
    (copySlots old oldSize newSize).getD i emptySlot = old.getD i emptySlot := by
  have hl : i < ((List.range newSize).map
      (fun j => if j < oldSize then old.getD j emptySlot else emptySlot)).length := by
    simp [h2]
  rw [copySlots, List.getD_eq_getElem _ _ hl]
  simp [h1]

/-- Claim C4: under the all-slots-occupied precondition,
`tryExpandingChildrenCapacityAssumeFull` returns false when the observed state
is GROWING1 or GROWING2 or when its CAS on `state` fails; and when it succeeds
from EXPANDED0 (resp. EXPANDED1), every slot `i` of the old array — child
pointer, edge-visit count and move label — is copied into slot `i` of the
next-tier array, which is installed with the state stored as EXPANDED1
(resp. EXPANDED2). -/
theorem claim_C4_tryExpandingChildrenCapacity
    (n : GrowNode) (stateValue : NodeState) (casSucceeds : Bool) :
    ((stateValue = NodeState.GROWING1 ∨ stateValue = NodeState.GROWING2) →
      tryExpandingChildrenCapacityAssumeFull n stateValue casSucceeds =
        some (false, n, stateValue)) ∧
    ((stateValue = NodeState.EXPANDED0 ∨ stateValue = NodeState.EXPANDED1) →
      casSucceeds = false →
      tryExpandingChildrenCapacityAssumeFull n stateValue casSucceeds =
        some (false, n, stateValue)) ∧
    (∀ oldChildren : List ChildSlot,
      stateValue = NodeState.EXPANDED0 → casSucceeds = true →
      n.children0 = some oldChildren →
      slotsAllFull oldChildren CHILDREN0SIZE = true →
      n.children1 = none →
      ∃ newNode : GrowNode,
        tryExpandingChildrenCapacityAssumeFull n stateValue casSucceeds =
          some (true, newNode, NodeState.EXPANDED1) ∧
        newNode.state = NodeState.EXPANDED1 ∧
        ∃ newChildren : List ChildSlot,
          newNode.children1 = some newChildren ∧
          newChildren.length = CHILDREN1SIZE ∧
          ∀ i, i < CHILDREN0SIZE →
            newChildren.getD i emptySlot = oldChildren.getD i emptySlot) ∧
    (∀ oldChildren : List ChildSlot,
      stateValue = NodeState.EXPANDED1 → casSucceeds = true →
      n.children1 = some oldChildren →
      slotsAllFull oldChildren CHILDREN1SIZE = true →
      n.children2 = none →
      ∃ newNode : GrowNode,
        tryExpandingChildrenCapacityAssumeFull n stateValue casSucceeds =
          some (true, newNode, NodeState.EXPANDED2) ∧
        newNode.state = NodeState.EXPANDED2 ∧
        ∃ newChildren : List ChildSlot,
          newNode.children2 = some newChildren ∧
          newChildren.length = CHILDREN2SIZE ∧
          ∀ i, i < CHILDREN1SIZE →
            newChildren.getD i emptySlot = oldChildren.getD i emptySlot) := by
  refine ⟨?_, ?_, ?_, ?_⟩
  · rintro (rfl | rfl) <;>
      simp [tryExpandingChildrenCapacityAssumeFull, NodeState.toNat]
  · rintro (rfl | rfl) rfl <;>
      simp [tryExpandingChildrenCapacityAssumeFull, NodeState.toNat]
  · rintro oldChildren rfl rfl h0 hfull h1
    refine ⟨{ n with
        children1 := some (copySlots oldChildren CHILDREN0SIZE CHILDREN1SIZE),
        state := NodeState.EXPANDED1 },
      ?_, rfl, copySlots oldChildren CHILDREN0SIZE CHILDREN1SIZE, rfl,
      copySlots_length _ _ _, ?_⟩
    · simp [tryExpandingChildrenCapacityAssumeFull, NodeState.toNat, h0, hfull, h1]
    · intro i hi
      exact copySlots_getD _ _ _ _ hi
        (lt_of_lt_of_le hi (by norm_num [CHILDREN0SIZE, CHILDREN1SIZE]))
  · rintro oldChildren rfl rfl h1 hfull h2
    refine ⟨{ n with
        children2 := some (copySlots oldChildren CHILDREN1SIZE CHILDREN2SIZE),
        state := NodeState.EXPANDED2 },
      ?_, rfl, copySlots oldChildren CHILDREN1SIZE CHILDREN2SIZE, rfl,
      copySlots_length _ _ _, ?_⟩
    · simp [tryExpandingChildrenCapacityAssumeFull, NodeState.toNat, h1, hfull, h2]
    · intro i hi
      exact copySlots_getD _ _ _ _ hi
        (lt_of_lt_of_le hi (by norm_num [CHILDREN1SIZE, CHILDREN2SIZE]))

/-- A concrete node in state EXPANDED0 whose first tier is full. -/
def growNodeWitness : GrowNode :=
  { state := NodeState.EXPANDED0
    children0 := some ((List.range CHILDREN0SIZE).map
      (fun i => { child := some i, edgeVisits := (i : Int), moveLoc := (i : Int) + 1 }))
    children1 := none
    children2 := none }

/-- Witness for C4: growing the concrete full node from EXPANDED0 succeeds and
copies every first-tier slot. -/
theorem claim_C4_tryExpandingChildrenCapacity_witness :
    ∃ newNode : GrowNode,
      tryExpandingChildrenCapacityAssumeFull growNodeWitness NodeState.EXPANDED0 true =
        some (true, newNode, NodeState.EXPANDED1) ∧
      newNode.state = NodeState.EXPANDED1 ∧
      ∃ newChildren : List ChildSlot,
        newNode.children1 = some newChildren ∧
        newChildren.length = CHILDREN1SIZE ∧
        ∀ i, i < CHILDREN0SIZE →
          newChildren.getD i emptySlot =
            ((List.range CHILDREN0SIZE).map
              (fun j => { child := some j, edgeVisits := (j : Int), moveLoc := (j : Int) + 1 })).getD
              i emptySlot :=
  (claim_C4_tryExpandingChildrenCapacity growNodeWitness NodeState.EXPANDED0 true).2.2.1
    _ rfl rfl rfl (by decide) rfl

/-- Projections of the promotion step: the cloned child becomes the root. -/
theorem promoteChildAndSweep_rootNode (s : SearchStateM) (root child : NodeM) (freshId : Nat) :
    (promoteChildAndSweep s root child freshId).rootNode = some (promoteClone child freshId) :=
  rfl

/-- If the tree block left no root node, the finish block leaves none either
(its conditional `clearSearch` calls only ever null the root again). -/
theorem makeMoveFinish_rootNode_none (oracle : RulesOracle) (s2 : SearchStateM)
    (moveLoc : Int) (preventEncore : Bool) (h : s2.rootNode = none) :
    (makeMoveFinish oracle s2 moveLoc preventEncore).rootNode = none := by
  unfold makeMoveFinish
  dsimp only
  repeat' split
  all_goals first | rfl | exact h

/-- If the tree block left every shard blank, so does the finish block. -/
theorem makeMoveFinish_shards_blank (oracle : RulesOracle) (s2 : SearchStateM)
    (moveLoc : Int) (preventEncore : Bool)
    (h : ∀ shard ∈ s2.nodeTableShards, shard = []) :
    ∀ shard ∈ (makeMoveFinish oracle s2 moveLoc preventEncore).nodeTableShards, shard = [] := by
  unfold makeMoveFinish
  dsimp only
  repeat' split
  all_goals first | exact clearSearch_shards_blank _ | exact h

/-- The finish block always leaves both avoid-move lists empty: line 937-938
clears them and no later `clearSearch` touches them. -/
theorem makeMoveFinish_avoid_nil (oracle : RulesOracle) (s2 : SearchStateM)
    (moveLoc : Int) (preventEncore : Bool) :
    (makeMoveFinish oracle s2 moveLoc preventEncore).avoidMoveUntilByLocBlack = [] ∧
    (makeMoveFinish oracle s2 moveLoc preventEncore).avoidMoveUntilByLocWhite = [] := by
  unfold makeMoveFinish
  dsimp only
  constructor <;>
  · repeat' split
    all_goals rfl

/-- When the move changes no handicap bonus and neither the conservative-pass
nor the prevent-encore condition fires, the finish block is exactly the
board/history/player update with the avoid lists cleared. -/
theorem makeMoveFinish_promote (oracle : RulesOracle) (s2 : SearchStateM) (moveLoc : Int)
    (preventEncore : Bool)
    (hbonus : oracle.whiteHandicapBonusScore
        (oracle.historyAfterMove s2.rootHistory s2.rootBoard moveLoc s2.rootPla preventEncore) =
      oracle.whiteHandicapBonusScore s2.rootHistory)
    (hcons : s2.searchParams.conservativePass = false ∨
      oracle.passWouldEndGame
        (oracle.historyAfterMove s2.rootHistory s2.rootBoard moveLoc s2.rootPla preventEncore)
        (oracle.boardAfterMove s2.rootBoard moveLoc s2.rootPla) (getOpp s2.rootPla) = false)
    (henc : preventEncore = false ∨
      oracle.passWouldEndPhase
        (oracle.historyAfterMove s2.rootHistory s2.rootBoard moveLoc s2.rootPla preventEncore)
        (oracle.boardAfterMove s2.rootBoard moveLoc s2.rootPla) (getOpp s2.rootPla) = false) :
    makeMoveFinish oracle s2 moveLoc preventEncore =
      { s2 with
        rootBoard := oracle.boardAfterMove s2.rootBoard moveLoc s2.rootPla,
        rootHistory :=
          oracle.historyAfterMove s2.rootHistory s2.rootBoard moveLoc s2.rootPla preventEncore,
        rootPla := getOpp s2.rootPla,
        avoidMoveUntilByLocBlack := [],
        avoidMoveUntilByLocWhite := [] } := by
  unfold makeMoveFinish
  rcases henc with he | he
  · subst he
    rcases hcons with hc | hc <;> simp [hbonus, hc]
  · rcases hcons with hc | hc <;> simp [hbonus, hc, he]

/-- Claim C2 (amended): `makeMove` returns false exactly when the ko-tolerant
legality check fails, and then leaves the whole search state unchanged. When it
returns true with the move made by the root player and a root child matching
the move exists with a non-null evaluator output, that child is promoted
(cloned) as the new root and the table keeps exactly the entries reachable from
the new root — provided the move does not change the white handicap bonus and
neither the conservative-pass nor the prevent-encore condition forces a clear
afterwards. When the root exists but no matching child with an evaluator
output is found, or the move is made by the non-root player, the search tree is
cleared instead. -/
theorem claim_C2_makeMove
    (oracle : RulesOracle) (s : SearchStateM) (moveLoc : Int) (movePla : Player)
    (preventEncore : Bool) (freshId : Nat) :
    ((makeMove oracle s moveLoc movePla preventEncore freshId).1 = false ↔
      oracle.isLegalTolerantRes moveLoc movePla = false) ∧
    (oracle.isLegalTolerantRes moveLoc movePla = false →
      (makeMove oracle s moveLoc movePla preventEncore freshId).2 = s) ∧
    (∀ root child : NodeM,
      oracle.isLegalTolerantRes moveLoc movePla = true →
      movePla = s.rootPla →
      s.rootNode = some root →
      foundChildWithNNOutput root moveLoc = some child →
      oracle.whiteHandicapBonusScore
          (oracle.historyAfterMove s.rootHistory s.rootBoard moveLoc s.rootPla preventEncore) =
        oracle.whiteHandicapBonusScore s.rootHistory →
      (s.searchParams.conservativePass = false ∨
        oracle.passWouldEndGame
          (oracle.historyAfterMove s.rootHistory s.rootBoard moveLoc s.rootPla preventEncore)
          (oracle.boardAfterMove s.rootBoard moveLoc s.rootPla) (getOpp s.rootPla) = false) →
      (preventEncore = false ∨
        oracle.passWouldEndPhase
          (oracle.historyAfterMove s.rootHistory s.rootBoard moveLoc s.rootPla preventEncore)
          (oracle.boardAfterMove s.rootBoard moveLoc s.rootPla) (getOpp s.rootPla) = false) →
      (makeMove oracle s moveLoc movePla preventEncore freshId).1 = true ∧
      (makeMove oracle s moveLoc movePla preventEncore freshId).2.rootNode =
        some (promoteClone child freshId) ∧
      (makeMove oracle s moveLoc movePla preventEncore freshId).2.nodeTableShards =
        s.nodeTableShards.map (fun shard =>
          shard.filter (fun kv => (reachableIds (promoteClone child freshId)).contains kv.2))) ∧
    (∀ root : NodeM,
      oracle.isLegalTolerantRes moveLoc movePla = true →
      movePla = s.rootPla →
      s.rootNode = some root →
      foundChildWithNNOutput root moveLoc = none →
      (makeMove oracle s moveLoc movePla preventEncore freshId).1 = true ∧
      (makeMove oracle s moveLoc movePla preventEncore freshId).2.rootNode = none ∧
      ∀ shard ∈ (makeMove oracle s moveLoc movePla preventEncore freshId).2.nodeTableShards,
        shard = []) ∧
    (oracle.isLegalTolerantRes moveLoc movePla = true →
      movePla ≠ s.rootPla →
      (makeMove oracle s moveLoc movePla preventEncore freshId).1 = true ∧
      (makeMove oracle s moveLoc movePla preventEncore freshId).2.rootNode = none ∧
      ∀ shard ∈ (makeMove oracle s moveLoc movePla preventEncore freshId).2.nodeTableShards,
        shard = []) := by
  refine ⟨?_, ?_, ?_, ?_, ?_⟩
  · cases hL : oracle.isLegalTolerantRes moveLoc movePla <;>
      simp [makeMove, hL]
  · intro hL
    simp [makeMove, hL]
  · rintro root child hL hpla hroot hfound hbonus hcons henc
    subst hpla
    have hM : makeMove oracle s moveLoc s.rootPla preventEncore freshId =
        (true, makeMoveFinish oracle (promoteChildAndSweep s root child freshId)
          moveLoc preventEncore) := by
      simp [makeMove, hL, makeMoveTreeStep, hroot, hfound]
    rw [hM]
    rw [makeMoveFinish_promote oracle (promoteChildAndSweep s root child freshId)
      moveLoc preventEncore hbonus hcons henc]
    exact ⟨rfl, rfl, rfl⟩
  · rintro root hL hpla hroot hfound
    subst hpla
    have hM : makeMove oracle s moveLoc s.rootPla preventEncore freshId =
        (true, makeMoveFinish oracle (clearSearch s) moveLoc preventEncore) := by
      simp [makeMove, hL, makeMoveTreeStep, hroot, hfound]
    rw [hM]
    exact ⟨rfl,
      makeMoveFinish_rootNode_none _ _ _ _ rfl,
      makeMoveFinish_shards_blank _ _ _ _ (clearSearch_shards_blank s)⟩
  · intro hL hpla
    have hM : makeMove oracle s moveLoc movePla preventEncore freshId =
        (true, makeMoveFinish oracle
          (makeMoveTreeStep (setPlayerAndClearHistory oracle s movePla) moveLoc freshId)
          moveLoc preventEncore) := by
      simp [makeMove, hL, hpla]
    have hroot1 : (makeMoveTreeStep (setPlayerAndClearHistory oracle s movePla)
        moveLoc freshId).rootNode = none := rfl
    have hsh1 : ∀ shard ∈ (makeMoveTreeStep (setPlayerAndClearHistory oracle s movePla)
        moveLoc freshId).nodeTableShards, shard = [] :=
      mem_deleteAllTableNodes_eq_nil s.nodeTableShards
    rw [hM]
    exact ⟨rfl,
      makeMoveFinish_rootNode_none _ _ _ _ hroot1,
      makeMoveFinish_shards_blank _ _ _ _ hsh1⟩

/-- A root child with an evaluator output, reached by move 5. -/
def childC2 : NodeM := NodeM.mk 2 5 true 10 false []

/-- A root node whose only child is `childC2`. -/
def rootC2 : NodeM := NodeM.mk 1 0 true 20 false [childC2]

/-- `sWitness` with the root node installed. -/
def sC2 : SearchStateM := { sWitness with rootNode := some rootC2 }

/-- A rules oracle on which every move is legal and none of the late
clear-search conditions of `makeMove` fires. -/
def oracleWitness : RulesOracle :=
  { isLegalTolerantRes := fun _ _ => true
    clearSimpleKoLoc := fun b => b
    clearedHistory := fun _ h => h
    boardAfterMove := fun b _ _ => b + 1
    historyAfterMove := fun h _ _ _ _ => h + 1
    whiteHandicapBonusScore := fun _ => 0
    passWouldEndGame := fun _ _ _ => false
    passWouldEndPhase := fun _ _ _ => false }

/-- Counterexample to claim C2 as stated: the root player is black and white
makes a legal move for which a matching root child with a non-null evaluator
output exists, yet `makeMove` returns true with the search tree cleared — the
child is not promoted, because `setPlayerAndClearHistory` clears the tree
before the promotion check whenever the move player differs from the root
player. -/
theorem claim_C2_makeMove_counterexample :
    sC2.rootPla = Player.black ∧
    sC2.rootNode = some rootC2 ∧
    foundChildWithNNOutput rootC2 5 = some childC2 ∧
    childC2.hasNNOutput = true ∧
    (makeMove oracleWitness sC2 5 Player.white false 99).1 = true ∧
    (makeMove oracleWitness sC2 5 Player.white false 99).2.rootNode = none := by
  refine ⟨rfl, rfl, rfl, rfl, rfl, ?_⟩
  have hM : makeMove oracleWitness sC2 5 Player.white false 99 =
      (true, makeMoveFinish oracleWitness
        (makeMoveTreeStep (setPlayerAndClearHistory oracleWitness sC2 Player.white) 5 99)
        5 false) := by
    simp [makeMove, oracleWitness, sC2, sWitness]
  rw [hM]
  exact makeMoveFinish_rootNode_none _ _ _ _ rfl

/-- Witness for C2 (amended) at a concrete promotion: black (the root player)
plays move 5, the matching child is promoted as a clone and the table is swept
to the entries reachable from the clone. -/
theorem claim_C2_makeMove_witness :
    (makeMove oracleWitness sC2 5 Player.black false 99).1 = true ∧
    (makeMove oracleWitness sC2 5 Player.black false 99).2.rootNode =
      some (promoteClone childC2 99) ∧
    (makeMove oracleWitness sC2 5 Player.black false 99).2.nodeTableShards =
      sC2.nodeTableShards.map (fun shard =>
        shard.filter (fun kv => (reachableIds (promoteClone childC2 99)).contains kv.2)) :=
  (claim_C2_makeMove oracleWitness sC2 5 Player.black false 99).2.2.1 rootC2 childC2
    rfl rfl rfl rfl rfl (Or.inl rfl) (Or.inl rfl)

/-- Claim C9: every successful `makeMove` leaves both avoid-move lists empty
(lines 936-938 clear them unconditionally on the success path and no later
`clearSearch` restores them), and `setPosition` clears them likewise. -/
theorem claim_C9_avoidMovesCleared
    (oracle : RulesOracle) (s : SearchStateM) (moveLoc : Int) (movePla : Player)
    (preventEncore : Bool) (freshId : Nat) (pla : Player) (board history : Nat) :
    ((makeMove oracle s moveLoc movePla preventEncore freshId).1 = true →
      (makeMove oracle s moveLoc movePla preventEncore freshId).2.avoidMoveUntilByLocBlack
        = [] ∧
      (makeMove oracle s moveLoc movePla preventEncore freshId).2.avoidMoveUntilByLocWhite
        = []) ∧
    (setPosition s pla board history).avoidMoveUntilByLocBlack = [] ∧
    (setPosition s pla board history).avoidMoveUntilByLocWhite = [] := by
  refine ⟨?_, rfl, rfl⟩
  intro htrue
  cases hL : oracle.isLegalTolerantRes moveLoc movePla with
  | false =>
    rw [show makeMove oracle s moveLoc movePla preventEncore freshId = (false, s) by
      simp [makeMove, hL]] at htrue
    exact absurd htrue (by simp)
  | true =>
    have hM : makeMove oracle s moveLoc movePla preventEncore freshId =
        (true, makeMoveFinish oracle
          (makeMoveTreeStep
            (if movePla ≠ s.rootPla then setPlayerAndClearHistory oracle s movePla else s)
            moveLoc freshId)
          moveLoc preventEncore) := by
      simp [makeMove, hL]
    rw [hM]
    exact makeMoveFinish_avoid_nil _ _ _ _

/-- Witness for C9: the concrete promotion move clears the (nonempty) avoid
lists of `sC2`. -/
theorem claim_C9_avoidMovesCleared_witness :
    (makeMove oracleWitness sC2 5 Player.black false 99).2.avoidMoveUntilByLocBlack = [] ∧
    (makeMove oracleWitness sC2 5 Player.black false 99).2.avoidMoveUntilByLocWhite = [] :=
  (claim_C9_avoidMovesCleared oracleWitness sC2 5 Player.black false 99
    Player.white 0 0).1 rfl

/-- `getD` through a map over `List.range`. -/
theorem getD_map_range {α : Type} (f : Nat → α) (n i : Nat) (h : i < n) (d : α) :
    ((List.range n).map f).getD i d = f i := by
  have hl : i < ((List.range n).map f).length := by simp [h]
  rw [List.getD_eq_getElem _ _ hl]
  simp

/-- `getD` through `List.map` within bounds. -/
theorem getD_map_of_lt (f : ℝ → ℝ) (l : List ℝ) (i : Nat) (h : i < l.length) (d : ℝ) :
    (l.map f).getD i d = f (l.getD i d) := by
  have hl : i < (l.map f).length := by simp [h]
  rw [List.getD_eq_getElem _ _ hl, List.getElem_map, List.getD_eq_getElem _ _ h]

/-- `sumOverLegal` against a pointwise image of the same list is the plain sum
over the filtered list. -/
theorem sumOverLegal_map (f : ℝ → ℝ) (l : List ℝ) :
    sumOverLegal l (l.map f) = ((l.filter isLegalProb).map f).sum := by
  induction l with
  | nil => rfl
  | cons p ps ih =>
    cases h : isLegalProb p <;>
      simp [sumOverLegal, h, ih, List.filter_cons]

/-- `sumOverLegal` commutes with scaling the values. -/
theorem sumOverLegal_map_mul (policy values : List ℝ) (c : ℝ) :
    sumOverLegal policy (values.map (fun a => a * c)) = sumOverLegal policy values * c := by
  induction policy generalizing values with
  | nil =>
    cases values <;> simp [sumOverLegal]
  | cons p ps ih =>
    cases values with
    | nil => simp [sumOverLegal]
    | cons v vs =>
      cases h : isLegalProb p <;> simp [sumOverLegal, h, ih vs] <;> ring

/-- Sum of a constant over a list. -/
theorem sum_map_const_real (l : List ℝ) (c : ℝ) :
    (l.map (fun _ => c)).sum = (l.length : ℝ) * c := by
  induction l with
  | nil => simp
  | cons x xs ih =>
    simp only [List.map_cons, List.sum_cons, List.length_cons, ih]
    push_cast
    ring

/-- Sum of the 0.5-mixed shares. -/
theorem sum_map_mix (l : List ℝ) (g : ℝ → ℝ) (c u : ℝ) :
    (l.map (fun x => 0.5 * (g x / c + u))).sum =
      0.5 * ((l.map g).sum / c + (l.length : ℝ) * u) := by
  induction l with
  | nil => simp
  | cons x xs ih =>
    simp only [List.map_cons, List.sum_cons, List.length_cons, ih]
    push_cast
    ring

/-- Claim C6: with at least one legal move, the alpha proportions computed by
`computeDirichletAlphaDistribution` sum to 1 over the legal moves (so the
alphas scaled by `rootDirichletNoiseTotalConcentration` sum to the total
concentration); in the non-degenerate case each legal proportion is 0.5 times
the uniform share plus 0.5 times the log-policy-shaped share; and
`addDirichletNoise` replaces each legal move's probability by
`rootDirichletNoiseWeight` times the normalized gamma draw plus
`(1 - rootDirichletNoiseWeight)` times the original probability, leaving
illegal moves unchanged. -/
theorem claim_C6_dirichletNoise
    (searchParams : SearchParams) (gammaDraw : Nat → ℝ → ℝ) (policy : List ℝ)
    (hleg : 0 < legalCount policy) :
    computeDirichletAlphaDistribution policy = some (dirichletAlphaEntries policy) ∧
    sumOverLegal policy (dirichletAlphaEntries policy) = 1 ∧
    sumOverLegal policy ((dirichletAlphaEntries policy).map
        (fun a => a * searchParams.rootDirichletNoiseTotalConcentration)) =
      searchParams.rootDirichletNoiseTotalConcentration ∧
    (0 < alphaPropSum policy →
      ∀ i, i < policy.length → isLegalProb (policy.getD i 0) = true →
        (dirichletAlphaEntries policy).getD i 0 =
          0.5 * uniformProb policy +
            0.5 * (alphaPropAt policy (policy.getD i 0) / alphaPropSum policy)) ∧
    (∃ noisy : List ℝ,
      addDirichletNoise searchParams gammaDraw policy = some noisy ∧
      noisy.length = policy.length ∧
      (∀ i, i < policy.length → isLegalProb (policy.getD i 0) = false →
        noisy.getD i 0 = policy.getD i 0) ∧
      (∀ i, i < policy.length → isLegalProb (policy.getD i 0) = true →
        noisy.getD i 0 =
          ((gammaDraws searchParams gammaDraw policy).getD i 0 /
              (gammaDraws searchParams gammaDraw policy).sum) *
            searchParams.rootDirichletNoiseWeight +
          policy.getD i 0 * (1 - searchParams.rootDirichletNoiseWeight))) := by
  have hne : legalCount policy ≠ 0 := Nat.pos_iff_ne_zero.mp hleg
  have hnR : ((legalCount policy : ℝ)) ≠ 0 := Nat.cast_ne_zero.mpr hne
  have hcompute : computeDirichletAlphaDistribution policy =
      some (dirichletAlphaEntries policy) := by
    rw [computeDirichletAlphaDistribution, if_neg hne]
  have hmem : ∀ p ∈ policy.filter isLegalProb, isLegalProb p = true :=
    fun p hp => (List.mem_filter.mp hp).2
  have hsum1 : sumOverLegal policy (dirichletAlphaEntries policy) = 1 := by
    rw [dirichletAlphaEntries, sumOverLegal_map]
    by_cases hS : alphaPropSum policy ≤ 0
    · rw [List.map_congr_left
        (fun p hp => by rw [if_pos (hmem p hp), if_pos hS])]
      rw [sum_map_const_real]
      show ((legalCount policy : ℝ)) * uniformProb policy = 1
      rw [uniformProb]
      field_simp
    · rw [List.map_congr_left
        (fun p hp => by rw [if_pos (hmem p hp), if_neg hS])]
      rw [sum_map_mix]
      show (0.5 : ℝ) * (alphaPropSum policy / alphaPropSum policy +
        ((legalCount policy : ℝ)) * uniformProb policy) = 1
      have hS0 : alphaPropSum policy ≠ 0 := fun h => hS (le_of_eq h)
      rw [div_self hS0, uniformProb]
      field_simp
      norm_num
  refine ⟨hcompute, hsum1, ?_, ?_, ?_⟩
  · rw [sumOverLegal_map_mul, hsum1, one_mul]
  · intro hS0 i hi hLp
    rw [dirichletAlphaEntries, getD_map_of_lt _ _ _ hi, if_pos hLp,
      if_neg (not_le.mpr hS0)]
    ring
  · refine ⟨noisyPolicyEntries searchParams gammaDraw policy, ?_, ?_, ?_, ?_⟩
    · unfold addDirichletNoise
      rw [hcompute]
    · simp [noisyPolicyEntries]
    · intro i hi hfalse
      rw [noisyPolicyEntries, getD_map_range _ _ _ hi]
      simp only [hfalse]
      exact if_neg (by simp [hfalse])
    · intro i hi hLp
      rw [noisyPolicyEntries, getD_map_range _ _ _ hi]
      exact if_pos hLp

/-- Witness for C6 at the concrete policy `[1, -1]` (one legal and one illegal
move): the alpha proportions sum to 1 over the legal moves. -/
theorem claim_C6_dirichletNoise_witness :
    sumOverLegal [1, -1] (dirichletAlphaEntries [1, -1]) = 1 :=
  (claim_C6_dirichletNoise spWitness (fun _ _ => 1) [1, -1]
    (by
      have h1 : isLegalProb (1 : ℝ) = true := by simp [isLegalProb]
      have h2 : isLegalProb (-1 : ℝ) = false := by simp [isLegalProb]
      simp [legalCount, List.filter_cons, h1, h2])).2.1

end KataGoSearch
